import Mathlib

/-
Verification of the SVG-to-emblem converter (`src/svg_converter.py`).

Shallow embedding conventions:
* Python floats and numeric attribute strings are modelled by rational
  numbers (ℚ); Python complex numbers (`z.real` / `z.imag`) become the
  two-field structure `Pt`.
* The external library svgpathtools is not part of the repository; its
  objects are modelled by the types below.  Its segment-level bounding
  box (computed with floating-point root finding for curves) is taken as
  a parameter `segBBox`; `Path.bbox` combining the segment boxes, and
  its raising behaviour on an empty path, are modelled in `pathBBox`.
* Raising an exception is modelled with `Except`/`Option`; the
  `try/except` wrapper of `svg_to_battlefield` collapses every failure
  to `none` (the Python `None`).
* File parsing (`ET.parse`, `svg2paths`) is I/O plumbing outside the
  modelled core; the pipeline is entered at the point where `svg2paths`
  has produced the `paths` and `attributes` lists.  The unused local
  variables of the source (`svg_width`, `svg_height`, `max_top`,
  `max_height`) are dead code and are not reproduced.
-/

set_option maxHeartbeats 1000000

namespace SvgConv

/-- A two-dimensional point with rational coordinates, modelling the
complex numbers svgpathtools uses for coordinates. -/
structure Pt where
  re : ℚ
  im : ℚ
deriving DecidableEq

/-- Segment kinds of svgpathtools as seen by the converter.  The `arc`
constructor stands for any segment kind outside line, cubic Bezier and
quadratic Bezier (for instance `Arc`); the converter rejects it. -/
inductive Segment where
  | line (p0 p1 : Pt)
  | cubic (p0 p1 p2 p3 : Pt)
  | quad (p0 p1 p2 : Pt)
  | arc (p0 p1 : Pt)
deriving DecidableEq

/-- One entry of the `paths` list produced by `svg2paths`: either a
`Path` object (an ordered list of segments) or a bare non-`Path` object,
which the source treats as a single segment when appending it to a
combined path (`combined_path.append(p)`). -/
inductive Shape where
  | path (segs : List Segment)
  | seg (s : Segment)
deriving DecidableEq

/-- The attribute mapping of one SVG element.  All keys are optional, as
in the Python dict; numeric attribute strings are modelled by their
rational values.  `d` is the raw path-data string (only its presence is
ever tested), `style` is the raw CSS style string (never read by the
source). -/
structure Attrib where
  fill : Option String := none
  opacity : Option ℚ := none
  d : Option String := none
  x : Option ℚ := none
  y : Option ℚ := none
  width : Option ℚ := none
  height : Option ℚ := none
  style : Option String := none
deriving DecidableEq

/-- The two asset kinds an emblem layer can carry. -/
inductive Asset where
  | Stroke
  | Square
deriving DecidableEq

/-- One output layer record, with the eleven fields the source emits. -/
structure Layer where
  opacity : ℚ
  angle : ℚ
  flipX : Bool
  flipY : Bool
  top : ℚ
  left : ℚ
  height : ℚ
  width : ℚ
  asset : Asset
  selectable : Bool
  fill : String
deriving DecidableEq

/-- The JSON-RPC envelope built at the end of `svg_to_battlefield`. -/
structure Payload where
  jsonrpc : String
  method : String
  data : List Layer
  id : String
deriving DecidableEq

/-- Bounding box in the svgpathtools order `(xmin, xmax, ymin, ymax)`;
the source indexes it as `bbox[0] .. bbox[3]`. -/
structure BBox where
  xmin : ℚ
  xmax : ℚ
  ymin : ℚ
  ymax : ℚ
deriving DecidableEq

deriving instance DecidableEq for Except

/-! ### Layer Simplifier (`simplify_svg`, lines 7-70) -/

/-- The pass-1 style key
`(attrib.get('fill', '#000000'), attrib.get('opacity', '1'))`. -/
def styleKey (a : Attrib) : String × ℚ :=
  (a.fill.getD "#000000", a.opacity.getD 1)

/-- Insertion-ordered grouping, modelling the Python dict built with
`if key not in d: d[key] = []` followed by `d[key].append(v)`: a fresh
key goes to the end, an existing key appends to its bucket. -/
def groupInsert {κ ν : Type} [DecidableEq κ]
    (groups : List (κ × List ν)) (k : κ) (v : ν) : List (κ × List ν) :=
  match groups with
  | [] => [(k, [v])]
  | g :: rest => if g.1 = k then (g.1, g.2 ++ [v]) :: rest else g :: groupInsert rest k v

/-- The body of the combining loop: a `Path` contributes all its
segments in order, a non-`Path` object is appended as one segment. -/
def appendShape (acc : List Segment) : Shape → List Segment
  | .path segs => acc ++ segs
  | .seg s => acc ++ [s]

/-- Building `combined_path` from one style group (lines 19-25). -/
def combineGroup (shapes : List Shape) : List Segment :=
  shapes.foldl appendShape []

/-- Pass 1 of `simplify_svg` (lines 9-27): group the entries by style
key in insertion order, concatenate each group into one combined path,
and emit one `{'fill': f, 'opacity': o}` attribute per group. -/
def pass1 (paths : List Shape) (attributes : List Attrib) :
    List Shape × List Attrib :=
  let groups := (paths.zip attributes).foldl
    (fun g pa => groupInsert g (styleKey pa.2) pa.1) []
  (groups.map (fun g => Shape.path (combineGroup g.2)),
   groups.map (fun g => { fill := some g.1.1, opacity := some g.1.2 }))

/-- Bounding box of a whole path, following svgpathtools `Path.bbox`:
the componentwise min/max of the segment boxes.  On an empty path the
library raises (unpacking `zip(*[])` fails), modelled by `none`.  The
segment-level box is the parameter `segBBox`. -/
def pathBBox (segBBox : Segment → BBox) : List Segment → Option BBox
  | [] => none
  | s :: rest =>
    some (rest.foldl
      (fun acc seg =>
        let b := segBBox seg
        ⟨min acc.xmin b.xmin, max acc.xmax b.xmax,
         min acc.ymin b.ymin, max acc.ymax b.ymax⟩)
      (segBBox s))

/-- The size assigned to an entry by the truncation pass (lines 30-36).
The source computes `(bbox[2] - bbox[0]) * (bbox[3] - bbox[1])` on the
`(xmin, xmax, ymin, ymax)` tuple, i.e. `(ymin - xmin) * (ymax - xmax)`.
A non-`Path` entry gets size 0; an empty path makes `bbox()` raise. -/
def pathSize (segBBox : Segment → BBox) : Shape → Except String ℚ
  | .path segs =>
    match pathBBox segBBox segs with
    | some b => .ok ((b.ymin - b.xmin) * (b.ymax - b.xmax))
    | none => .error "bbox of an empty path"
  | .seg _ => .ok 0

/-- Stable insertion into a descending-sorted list: the new element goes
in front of the first element whose key is not larger, so an element
earlier in the original list stays in front of later elements with an
equal key. -/
def insertDesc {α : Type} (key : α → ℚ) (x : α) : List α → List α
  | [] => [x]
  | y :: ys => if key y ≤ key x then x :: y :: ys else y :: insertDesc key x ys

/-- Stable descending sort by a rational key, extensionally equal to the
Python `sorted(..., key=..., reverse=True)` (which is a stable sort). -/
def pySortDesc {α : Type} (key : α → ℚ) : List α → List α
  | [] => []
  | x :: xs => insertDesc key x (pySortDesc key xs)

/-- The `path_sizes` loop (lines 30-36): one size per entry, raising at
the first entry whose `bbox()` raises. -/
def mapSizes (segBBox : Segment → BBox) : List Shape → Except String (List ℚ)
  | [] => .ok []
  | p :: ps =>
    match pathSize segBBox p with
    | .error e => .error e
    | .ok s =>
      match mapSizes segBBox ps with
      | .error e => .error e
      | .ok rest => .ok (s :: rest)

/-- Pass 2 of `simplify_svg` (lines 29-39): compute the size of every
entry, sort the zipped triples descending by size (stably), and keep the
first `max_layers` paths and attributes. -/
def pass2 (segBBox : Segment → BBox) (ps : List Shape) (attrs : List Attrib)
    (max_layers : ℕ) : Except String (List Shape × List Attrib) :=
  match mapSizes segBBox ps with
  | .error e => .error e
  | .ok sizes =>
    let sorted := pySortDesc (fun t => t.2) ((ps.zip attrs).zip sizes)
    .ok ((sorted.take max_layers).map (fun t => t.1.1),
         (sorted.take max_layers).map (fun t => t.1.2))

/-- The combining loop of pass 3, dropping the opacity component. -/
def combineGroupOp (lst : List (Shape × ℚ)) : List Segment :=
  lst.foldl (fun acc po => appendShape acc po.1) []

/-- Pass 3 of `simplify_svg` (lines 41-64): regroup by fill colour
alone, combine each group into one path and average its opacities
(`avg_opacity /= len` guarded by `len > 0`). -/
def pass3 (ps : List Shape) (attrs : List Attrib) :
    List Shape × List Attrib :=
  let groups := (ps.zip attrs).foldl
    (fun g pa => groupInsert g (pa.2.fill.getD "#000000") (pa.1, pa.2.opacity.getD 1)) []
  (groups.map (fun g => Shape.path (combineGroupOp g.2)),
   groups.map (fun g =>
     let total := g.2.foldl (fun s po => s + po.2) 0
     let avg := if g.2.length > 0 then total / (g.2.length : ℚ) else total
     { fill := some g.1, opacity := some avg }))

/-- `simplify_svg` (lines 7-70): pass 1 always, pass 2 when still over
`max_layers`, pass 3 when still over, and a final hard truncation. -/
def simplify_svg (segBBox : Segment → BBox) (paths : List Shape)
    (attributes : List Attrib) (max_layers : ℕ) :
    Except String (List Shape × List Attrib) :=
  let r1 := pass1 paths attributes
  match (if r1.1.length > max_layers
         then pass2 segBBox r1.1 r1.2 max_layers
         else .ok r1) with
  | .error e => .error e
  | .ok r2 =>
    let r3 := if r2.1.length > max_layers then pass3 r2.1 r2.2 else r2
    .ok (if r3.1.length > max_layers
         then (r3.1.take max_layers, r3.2.take max_layers)
         else r3)

/-! ### Layer Projector (`svg_to_battlefield`, lines 115-162) -/

/-- Python `str.lower()`, modelled character by character. -/
def pyLower (s : String) : String :=
  String.mk (s.data.map Char.toLower)

/-- Fill-colour resolution of the projection loop (lines 116-118):
`attrib.get('fill', '#000000')`, then a case-insensitive `none` is
replaced by `#000000`.  The `style` attribute is never consulted. -/
def resolveFill (a : Attrib) : String :=
  let fill_color := a.fill.getD "#000000"
  if pyLower fill_color = "none" then "#000000" else fill_color

/-- Opacity resolution of the projection loop (line 119):
`float(attrib.get('opacity', 1))`.  The `style` attribute is never
consulted. -/
def resolveOpacity (a : Attrib) : ℚ :=
  a.opacity.getD 1

/-- svgpathtools `CubicBezier.point`: the cubic Bernstein polynomial. -/
def cubicPoint (p0 p1 p2 p3 : Pt) (t : ℚ) : Pt :=
  ⟨(1 - t) ^ 3 * p0.re + 3 * (1 - t) ^ 2 * t * p1.re
     + 3 * (1 - t) * t ^ 2 * p2.re + t ^ 3 * p3.re,
   (1 - t) ^ 3 * p0.im + 3 * (1 - t) ^ 2 * t * p1.im
     + 3 * (1 - t) * t ^ 2 * p2.im + t ^ 3 * p3.im⟩

/-- svgpathtools `QuadraticBezier.point`: the quadratic Bernstein
polynomial. -/
def quadPoint (p0 p1 p2 : Pt) (t : ℚ) : Pt :=
  ⟨(1 - t) ^ 2 * p0.re + 2 * (1 - t) * t * p1.re + t ^ 2 * p2.re,
   (1 - t) ^ 2 * p0.im + 2 * (1 - t) * t * p1.im + t ^ 2 * p2.im⟩

/-- `segment.point(t)` of svgpathtools for the kinds the converter
samples.  The `arc` case is never invoked by the converter (it aborts on
arcs before sampling); its value here is an arbitrary endpoint. -/
def Segment.point : Segment → ℚ → Pt
  | .line p0 p1, t => ⟨p0.re + (p1.re - p0.re) * t, p0.im + (p1.im - p0.im) * t⟩
  | .cubic p0 p1 p2 p3, t => cubicPoint p0 p1 p2 p3 t
  | .quad p0 p1 p2, t => quadPoint p0 p1 p2 t
  | .arc p0 _, _ => p0

/-- The 21 sample points of the curve branch (lines 136-137):
`[segment.point(i/num_points) for i in range(num_points + 1)]` with
`num_points = 20`. -/
def curveSamples (seg : Segment) : List Pt :=
  (List.range 21).map (fun i : ℕ => seg.point ((i : ℚ) / 20))

/-- Python `min` over a list of rationals: first element, then fold.
The value on `[]` is arbitrary (Python would raise; never reached
here, the sample list always has 21 points). -/
def pyMin : List ℚ → ℚ
  | [] => 0
  | h :: t => t.foldl min h

/-- Python `max` over a list of rationals, as in `pyMin`. -/
def pyMax : List ℚ → ℚ
  | [] => 0
  | h :: t => t.foldl max h

/-- The Stroke layer built from the sampled points of a curve segment
(lines 138-146). -/
def curveLayer (S : ℚ) (fill : String) (op : ℚ) (points : List Pt) : Layer :=
  let min_x := pyMin (points.map Pt.re) * S
  let min_y := pyMin (points.map Pt.im) * S
  let max_x := pyMax (points.map Pt.re) * S
  let max_y := pyMax (points.map Pt.im) * S
  { opacity := op, angle := 0, flipX := false, flipY := false,
    top := min_y, left := min_x, height := max_y - min_y, width := max_x - min_x,
    asset := .Stroke, selectable := false, fill := fill }

/-- Projection of one segment (lines 123-149): a line becomes a Stroke
layer from its endpoints, a cubic or quadratic curve a Stroke layer from
its sampled bounding box, and any other kind aborts (`return None`). -/
def projectSegment (S : ℚ) (fill : String) (op : ℚ) : Segment → Option Layer
  | .line p0 p1 =>
    some { opacity := op, angle := 0, flipX := false, flipY := false,
           top := min p0.im p1.im * S, left := min p0.re p1.re * S,
           height := |p1.im - p0.im| * S, width := |p1.re - p0.re| * S,
           asset := .Stroke, selectable := false, fill := fill }
  | .cubic p0 p1 p2 p3 => some (curveLayer S fill op (curveSamples (.cubic p0 p1 p2 p3)))
  | .quad p0 p1 p2 => some (curveLayer S fill op (curveSamples (.quad p0 p1 p2)))
  | .arc _ _ => none

/-- The Square layer of the rectangle branch (lines 150-159), with every
missing coordinate defaulting to 0. -/
def rectLayer (S : ℚ) (a : Attrib) (fill : String) (op : ℚ) : Layer :=
  { opacity := op, angle := 0, flipX := false, flipY := false,
    top := a.y.getD 0 * S, left := a.x.getD 0 * S,
    height := a.height.getD 0 * S, width := a.width.getD 0 * S,
    asset := .Square, selectable := false, fill := fill }

/-- The inner loop over the segments of one path, in order; the first
unsupported segment aborts the whole conversion. -/
def projectPath (S : ℚ) (fill : String) (op : ℚ) : List Segment → Option (List Layer)
  | [] => some []
  | s :: rest =>
    match projectSegment S fill op s with
    | none => none
    | some l =>
      match projectPath S fill op rest with
      | none => none
      | some ls => some (l :: ls)

/-- The body of the projection loop for one `(path, attrib)` entry: a
`Path` goes through the segment loop, a non-`Path` without a `d` key
becomes one Square layer, and a non-`Path` with a `d` key is the
unhandled-element abort. -/
def projectEntry (S : ℚ) (pa : Shape × Attrib) : Option (List Layer) :=
  let fill := resolveFill pa.2
  let op := resolveOpacity pa.2
  match pa.1 with
  | .path segs => projectPath S fill op segs
  | .seg _ => if pa.2.d = none then some [rectLayer S pa.2 fill op] else none

/-- The projection loop over `zip(paths, attributes)` (lines 115-162),
accumulating `emblem_data`; any abort yields `None` with no partial
output. -/
def projectAll (S : ℚ) : List (Shape × Attrib) → Option (List Layer)
  | [] => some []
  | e :: rest =>
    match projectEntry S e with
    | none => none
    | some ls =>
      match projectAll S rest with
      | none => none
      | some acc => some (ls ++ acc)

/-! ### Canvas Fitter (`scale_to_fit`, lines 73-100) -/

/-- `overall_height` (lines 84-86): the running maximum of
`top + height` over the layers, starting from 0. -/
def overallHeight (emblem_data : List Layer) : ℚ :=
  emblem_data.foldl (fun acc l => max acc (l.top + l.height)) 0

/-- The in-place rescale of one layer (lines 96-99). -/
def scaleLayer (s : ℚ) (l : Layer) : Layer :=
  { l with top := l.top * s, left := l.left * s,
           height := l.height * s, width := l.width * s }

/-- `scale_to_fit` (lines 73-100).  When `overall_height` exceeds
`max_dimension` the factor `max_dimension / overall_height` is applied
to top, left, height and width of every layer; otherwise the factor is
1 and the `scale_factor != 1.0` guard leaves the data untouched.
(Python would raise `ZeroDivisionError` when `overall_height = 0` and
`max_dimension < 0`; `overall_height` is never negative, so a
nonnegative `max_dimension` never divides by zero, and every theorem
below stays in that regime.) -/
def scale_to_fit (emblem_data : List Layer) (max_dimension : ℚ) : List Layer :=
  let overall_height := overallHeight emblem_data
  let scale_factor :=
    if max_dimension < overall_height then max_dimension / overall_height else 1
  if scale_factor ≠ 1 then emblem_data.map (scaleLayer scale_factor) else emblem_data

/-! ### Top-level conversion (`svg_to_battlefield`, lines 103-178) -/

/-- `svg_to_battlefield` from the point where `svg2paths` has produced
`paths` and `attributes`: simplify, project, fit, and wrap in the
JSON-RPC envelope.  Any exception or abort inside the `try` block makes
the call return `None`; the layer-count warning of lines 167-168 is a
print with no effect on the data. -/
def svg_to_battlefield (segBBox : Segment → BBox) (paths : List Shape)
    (attributes : List Attrib) (initial_scale_factor : ℚ) (max_layers : ℕ)
    (max_dimension : ℚ) : Option Payload :=
  match simplify_svg segBBox paths attributes max_layers with
  | .error _ => none
  | .ok pa =>
    match projectAll initial_scale_factor (pa.1.zip pa.2) with
    | none => none
    | some emblem_data =>
      some { jsonrpc := "2.0", method := "Emblems.newPrivateEmblem",
             data := scale_to_fit emblem_data max_dimension,
             id := "00000000-0000-0000-0000-000000000000" }

/-! ### Auxiliary definitions for stating the claims -/

/-- Concrete segment box used to instantiate the `segBBox` parameter in
closed statements: the componentwise min/max of the defining points.
On a line this is exactly svgpathtools `Line.bbox`; the closed
statements below apply it to line segments only. -/
def segBBoxPts : Segment → BBox
  | .line p0 p1 =>
    ⟨min p0.re p1.re, max p0.re p1.re, min p0.im p1.im, max p0.im p1.im⟩
  | .cubic p0 p1 p2 p3 =>
    ⟨min (min p0.re p1.re) (min p2.re p3.re), max (max p0.re p1.re) (max p2.re p3.re),
     min (min p0.im p1.im) (min p2.im p3.im), max (max p0.im p1.im) (max p2.im p3.im)⟩
  | .quad p0 p1 p2 =>
    ⟨min (min p0.re p1.re) p2.re, max (max p0.re p1.re) p2.re,
     min (min p0.im p1.im) p2.im, max (max p0.im p1.im) p2.im⟩
  | .arc p0 p1 =>
    ⟨min p0.re p1.re, max p0.re p1.re, min p0.im p1.im, max p0.im p1.im⟩

/-- Modelled from the spec: the axis-aligned bounding-box area
(width times height of the full extent) the truncation pass is claimed
to sort by, with non-path or extent-free entries counted as area 0. -/
def specArea (segBBox : Segment → BBox) : Shape → ℚ
  | .path segs =>
    match pathBBox segBBox segs with
    | some b => (b.xmax - b.xmin) * (b.ymax - b.ymin)
    | none => 0
  | .seg _ => 0

/-- Splitting a character list at every occurrence of a separator. -/
def splitChar (c : Char) : List Char → List (List Char)
  | [] => [[]]
  | x :: xs =>
    match splitChar c xs with
    | [] => [[x]]
    | r :: rs => if x = c then [] :: r :: rs else (x :: r) :: rs

/-- Dropping leading and trailing spaces from a character list. -/
def trimSpaces (l : List Char) : List Char :=
  ((l.dropWhile (· = ' ')).reverse.dropWhile (· = ' ')).reverse

/-- Modelled from the spec: look a property up in a CSS-style
declaration string such as `fill:#FF0000;opacity:0.5`. -/
def styleLookup (style : String) (prop : String) : Option String :=
  ((splitChar ';' style.data).filterMap (fun decl =>
    match splitChar ':' decl with
    | [k, v] => if trimSpaces k = prop.data then some (String.mk (trimSpaces v)) else none
    | _ => none)).head?

/-- Modelled from the spec: the claimed fill resolution, preferring the
explicit `fill` attribute, then a `fill:` declaration in the `style`
string, normalizing a literal `none` (any case) to `#000000`. -/
def specResolveFill (a : Attrib) : String :=
  let raw :=
    match a.fill with
    | some f => f
    | none =>
      match a.style with
      | some st => (styleLookup st "fill").getD "#000000"
      | none => "#000000"
  if pyLower raw = "none" then "#000000" else raw

/-- The horizontal counterpart of `overallHeight`: the running maximum
of `left + width` over the layers, starting from 0.  The source never
computes it; it states the horizontal-extent claim. -/
def horizExtent (emblem_data : List Layer) : ℚ :=
  emblem_data.foldl (fun acc l => max acc (l.left + l.width)) 0

/-- An entry of the projection loop that makes the conversion abort:
a path containing a segment outside line/cubic/quadratic, or a
non-`Path` entry carrying a `d` key. -/
def abortingEntry : Shape × Attrib → Prop
  | (.path segs, _) => ∃ s ∈ segs, ∀ p0 p1 p2 p3,
      s ≠ .line p0 p1 ∧ s ≠ .cubic p0 p1 p2 p3 ∧ s ≠ .quad p0 p1 p2
  | (.seg _, a) => a.d ≠ none

/-- Trivial segment box, used only to instantiate the `segBBox`
parameter in closed statements that never reach the truncation pass. -/
def segBBoxZero : Segment → BBox := fun _ => ⟨0, 0, 0, 0⟩

/-- Whether a segment is one of the two sampled curve kinds. -/
def isCurve : Segment → Bool
  | .cubic _ _ _ _ => true
  | .quad _ _ _ => true
  | _ => false

/-! ### Concrete inputs used in the closed statements below -/

/-- A degenerate line segment at the origin. -/
def seg00 : Segment := .line ⟨0, 0⟩ ⟨0, 0⟩

/-- An unsupported segment, standing for an elliptical arc. -/
def arcSeg : Segment := .arc ⟨0, 0⟩ ⟨1, 1⟩

/-- The layer `seg00` projects to under the default style at any scale. -/
def layer00 : Layer :=
  { opacity := 1, angle := 0, flipX := false, flipY := false,
    top := 0, left := 0, height := 0, width := 0,
    asset := .Stroke, selectable := false, fill := "#000000" }

/-- A diagonal line: bounding box area 9, code size value
(ymin - xmin) * (ymax - xmax) = (0 - 0) * (3 - 3) = 0. -/
def lineA : Segment := .line ⟨0, 0⟩ ⟨3, 3⟩

/-- A short line far from the origin: bounding box area 1, code size
value (ymin - xmin) * (ymax - xmax) = (0 - 10) * (1 - 11) = 100. -/
def lineB : Segment := .line ⟨10, 0⟩ ⟨11, 1⟩

def pathA : Shape := .path [lineA]

def pathB : Shape := .path [lineB]

def attribA : Attrib := { fill := some "#AAAAAA" }

def attribB : Attrib := { fill := some "#BBBBBB" }

/-- The rectangle attributes of Scenario A of the spec. -/
def attribRect : Attrib :=
  { fill := some "#FF0000", x := some 0, y := some 0,
    width := some 10, height := some 10 }

/-- An element styled only through its CSS `style` string. -/
def attribStyle : Attrib := { style := some "fill:#FF0000" }

/-- An explicit fill and opacity pair, in the image of pass 1. -/
def attribRed : Attrib := { fill := some "#FF0000", opacity := some 1 }

/-- A short, wide layer: vertical extent 1, horizontal extent 1000. -/
def wideLayer : Layer :=
  { opacity := 1, angle := 0, flipX := false, flipY := false,
    top := 0, left := 0, height := 1, width := 1000,
    asset := .Stroke, selectable := false, fill := "#000000" }

/-- A tall layer: vertical extent 634, twice the default cap 317. -/
def tallLayer : Layer :=
  { opacity := 1, angle := 0, flipX := false, flipY := false,
    top := 0, left := 0, height := 634, width := 1,
    asset := .Stroke, selectable := false, fill := "#000000" }

/-- A concrete quadratic Bezier segment. -/
def quadSeg : Segment := .quad ⟨0, 0⟩ ⟨1, 2⟩ ⟨2, 0⟩


/-! ### Helper lemmas on folded minima and maxima -/

theorem foldl_min_le_init (t : List ℚ) (a : ℚ) : t.foldl min a ≤ a := by
  induction t generalizing a with
  | nil => simp
  | cons h t ih => exact le_trans (ih (min a h)) (min_le_left a h)

theorem foldl_min_le_mem (t : List ℚ) (a x : ℚ) (hx : x ∈ t) : t.foldl min a ≤ x := by
  induction t generalizing a with
  | nil => cases hx
  | cons h t ih =>
    rcases List.mem_cons.mp hx with rfl | hx
    · exact le_trans (foldl_min_le_init t _) (min_le_right a x)
    · exact ih _ hx

theorem pyMin_le {l : List ℚ} {x : ℚ} (hx : x ∈ l) : pyMin l ≤ x := by
  cases l with
  | nil => cases hx
  | cons h t =>
    rcases List.mem_cons.mp hx with rfl | hx
    · exact foldl_min_le_init t x
    · exact foldl_min_le_mem t h x hx

theorem init_le_foldl_max (t : List ℚ) (a : ℚ) : a ≤ t.foldl max a := by
  induction t generalizing a with
  | nil => simp
  | cons h t ih => exact le_trans (le_max_left a h) (ih (max a h))

theorem mem_le_foldl_max (t : List ℚ) (a x : ℚ) (hx : x ∈ t) : x ≤ t.foldl max a := by
  induction t generalizing a with
  | nil => cases hx
  | cons h t ih =>
    rcases List.mem_cons.mp hx with rfl | hx
    · exact le_trans (le_max_right a x) (init_le_foldl_max t _)
    · exact ih _ hx

theorem le_pyMax {l : List ℚ} {x : ℚ} (hx : x ∈ l) : x ≤ pyMax l := by
  cases l with
  | nil => cases hx
  | cons h t =>
    rcases List.mem_cons.mp hx with rfl | hx
    · exact init_le_foldl_max t x
    · exact mem_le_foldl_max t h x hx

theorem foldl_min_map_mul (t : List ℚ) (S a : ℚ) (hS : 0 ≤ S) :
    (t.map (fun x => S * x)).foldl min (S * a) = S * t.foldl min a := by
  induction t generalizing a with
  | nil => rfl
  | cons h t ih =>
    simp only [List.map_cons, List.foldl_cons]
    rw [← mul_min_of_nonneg _ _ hS, ih (min a h)]

theorem pyMin_map_mul (l : List ℚ) (S : ℚ) (hS : 0 ≤ S) :
    pyMin (l.map (fun x => S * x)) = S * pyMin l := by
  cases l with
  | nil => simp [pyMin]
  | cons h t => simpa [pyMin] using foldl_min_map_mul t S h hS

theorem foldl_max_map_mul (t : List ℚ) (S a : ℚ) (hS : 0 ≤ S) :
    (t.map (fun x => S * x)).foldl max (S * a) = S * t.foldl max a := by
  induction t generalizing a with
  | nil => rfl
  | cons h t ih =>
    simp only [List.map_cons, List.foldl_cons]
    rw [← mul_max_of_nonneg _ _ hS, ih (max a h)]

theorem pyMax_map_mul (l : List ℚ) (S : ℚ) (hS : 0 ≤ S) :
    pyMax (l.map (fun x => S * x)) = S * pyMax l := by
  cases l with
  | nil => simp [pyMax]
  | cons h t => simpa [pyMax] using foldl_max_map_mul t S h hS

/-! ### Helper lemmas on the Canvas Fitter -/

theorem foldl_overall_map_scale (data : List Layer) (s a : ℚ) (hs : 0 ≤ s) :
    (data.map (scaleLayer s)).foldl (fun acc l => max acc (l.top + l.height)) (s * a)
      = s * data.foldl (fun acc l => max acc (l.top + l.height)) a := by
  induction data generalizing a with
  | nil => rfl
  | cons l rest ih =>
    simp only [List.map_cons, List.foldl_cons, scaleLayer]
    rw [show l.top * s + l.height * s = s * (l.top + l.height) by ring,
        ← mul_max_of_nonneg _ _ hs, ih (max a (l.top + l.height))]

theorem overallHeight_map_scale (data : List Layer) (s : ℚ) (hs : 0 ≤ s) :
    overallHeight (data.map (scaleLayer s)) = s * overallHeight data := by
  simpa [overallHeight] using foldl_overall_map_scale data s 0 hs

theorem scale_to_fit_of_le {data : List Layer} {D : ℚ}
    (h : overallHeight data ≤ D) : scale_to_fit data D = data := by
  simp [scale_to_fit, not_lt.mpr h]

theorem scale_to_fit_of_lt {data : List Layer} {D : ℚ} (hD : 0 ≤ D)
    (h : D < overallHeight data) :
    scale_to_fit data D = data.map (scaleLayer (D / overallHeight data)) := by
  have hpos : 0 < overallHeight data := lt_of_le_of_lt hD h
  have hne : D / overallHeight data ≠ 1 := ne_of_lt ((div_lt_one hpos).mpr h)
  simp [scale_to_fit, h, hne]

theorem overallHeight_scale_to_fit {data : List Layer} {D : ℚ} (hD : 0 ≤ D)
    (h : D < overallHeight data) :
    overallHeight (scale_to_fit data D) = D := by
  have hpos : 0 < overallHeight data := lt_of_le_of_lt hD h
  rw [scale_to_fit_of_lt hD h,
      overallHeight_map_scale _ _ (div_nonneg hD (le_of_lt hpos)),
      div_mul_cancel₀ D (ne_of_gt hpos)]

/-- C4: for a nonnegative maximum dimension D, the Canvas Fitter leaves
every layer unchanged when the overall height (the maximum of
top + height over the layers) is at most D, and otherwise multiplies
top, left, height and width of every layer by the single factor
D / overall height, after which the overall height equals D exactly. -/
theorem claim4_canvas_fitter (data : List Layer) (D : ℚ) (hD : 0 ≤ D) :
    (overallHeight data ≤ D → scale_to_fit data D = data) ∧
    (D < overallHeight data →
      scale_to_fit data D = data.map (scaleLayer (D / overallHeight data)) ∧
      overallHeight (scale_to_fit data D) = D) := by
  exact ⟨fun h => scale_to_fit_of_le h,
         fun h => ⟨scale_to_fit_of_lt hD h, overallHeight_scale_to_fit hD h⟩⟩

/-- C4 witness: a single layer of height 634 is halved to overall
height exactly 317. -/
theorem claim4_witness :
    scale_to_fit [tallLayer] 317
        = [tallLayer].map (scaleLayer (317 / overallHeight [tallLayer])) ∧
    overallHeight (scale_to_fit [tallLayer] 317) = 317 :=
  (claim4_canvas_fitter [tallLayer] 317 (by norm_num)).2
    (by norm_num [overallHeight, tallLayer, max_def])

/-- C9 (amended): after the Canvas Fitter runs with a nonnegative
maximum dimension, the vertical extent (maximum of top + height) fits
within that dimension; the horizontal extent is not constrained. -/
theorem claim9_vertical_only (data : List Layer) (D : ℚ) (hD : 0 ≤ D) :
    overallHeight (scale_to_fit data D) ≤ D := by
  rcases le_or_lt (overallHeight data) D with h | h
  · rw [scale_to_fit_of_le h]; exact h
  · exact le_of_eq (overallHeight_scale_to_fit hD h)

/-- C9 counterexample: a layer of height 1 and width 1000 passes the
fitter unchanged, so the horizontal extent (maximum of left + width) of
the output, here 1000, does not fit within the maximum dimension 317 —
refuting the claimed bound on the overall bounding extent. -/
theorem claim9_counterexample :
    scale_to_fit [wideLayer] 317 = [wideLayer] ∧
    ¬ horizExtent (scale_to_fit [wideLayer] 317) ≤ 317 := by
  have h : scale_to_fit [wideLayer] 317 = [wideLayer] :=
    scale_to_fit_of_le (by norm_num [overallHeight, wideLayer, max_def])
  refine ⟨h, ?_⟩
  rw [h]
  norm_num [horizExtent, wideLayer, max_def]

/-- C9 witness: the vertical extent of the fitted wide layer stays
within 317. -/
theorem claim9_witness : overallHeight (scale_to_fit [wideLayer] 317) ≤ 317 :=
  claim9_vertical_only [wideLayer] 317 (by norm_num)


/-! ### C2: the rectangle branch of the projector -/

/-- C2: a shape entry that is not a Path and carries no path data is
projected to exactly one Square-asset layer with top = y·S, left = x·S,
width = w·S and height = h·S, where a missing x, y, width or height
defaults to 0 and fill and opacity are resolved as in the source. -/
theorem claim2_rectangle (S : ℚ) (s : Segment) (a : Attrib) (hd : a.d = none) :
    projectEntry S (Shape.seg s, a) =
      some [{ opacity := resolveOpacity a, angle := 0, flipX := false, flipY := false,
              top := a.y.getD 0 * S, left := a.x.getD 0 * S,
              height := a.height.getD 0 * S, width := a.width.getD 0 * S,
              asset := Asset.Square, selectable := false, fill := resolveFill a }] := by
  simp [projectEntry, hd, rectLayer]

/-- C2 witness: Scenario A of the spec — a 10 by 10 rectangle at the
origin with fill #FF0000 and scale 8/5 yields exactly one Square layer
of size 16 by 16. -/
theorem claim2_witness :
    projectEntry (8/5) (Shape.seg seg00, attribRect) =
      some [{ opacity := 1, angle := 0, flipX := false, flipY := false,
              top := 0, left := 0, height := 16, width := 16,
              asset := Asset.Square, selectable := false, fill := "#FF0000" }] := by
  rw [claim2_rectangle (8/5) seg00 attribRect rfl]
  have hfill : resolveFill attribRect = "#FF0000" := by decide
  have hop : resolveOpacity attribRect = 1 := rfl
  simp only [hfill, hop]
  norm_num [attribRect]

/-! ### C5: fill and opacity resolution -/

/-- C5 counterexample: an entry whose only styling is the CSS string
fill:#FF0000 resolves to #000000 in the code, while the claimed
style-string fallback would resolve it to #FF0000 — refuting the claimed
explicit-attribute-then-style-string precedence. -/
theorem claim5_counterexample :
    resolveFill attribStyle = "#000000" ∧
    specResolveFill attribStyle = "#FF0000" ∧
    resolveFill attribStyle ≠ specResolveFill attribStyle :=
  ⟨by decide, by decide, by decide⟩

/-- C5 (amended): fill resolution reads only the explicit fill
attribute, defaulting to #000000 and normalizing a literal none of any
case to #000000, and opacity resolution reads only the explicit opacity
attribute, defaulting to 1; the style attribute never influences
either. -/
theorem claim5_no_style_fallback (a : Attrib) (s : Option String) :
    resolveFill { a with style := s } = resolveFill a ∧
    resolveOpacity { a with style := s } = resolveOpacity a ∧
    resolveFill a = (match a.fill with
      | none => "#000000"
      | some f => if pyLower f = "none" then "#000000" else f) ∧
    resolveOpacity a = a.opacity.getD 1 := by
  refine ⟨rfl, rfl, ?_, rfl⟩
  cases h : a.fill <;> simp [resolveFill, h]


/-! ### Helper lemmas on the stable sort and the simplifier passes -/

theorem insertDesc_perm {α : Type} (key : α → ℚ) (x : α) (l : List α) :
    (insertDesc key x l).Perm (x :: l) := by
  induction l with
  | nil => exact List.Perm.refl _
  | cons y ys ih =>
    by_cases h : key y ≤ key x
    · simp [insertDesc, h]
    · simp only [insertDesc, if_neg h]
      exact (ih.cons y).trans (List.Perm.swap x y ys)

theorem pySortDesc_perm {α : Type} (key : α → ℚ) (l : List α) :
    (pySortDesc key l).Perm l := by
  induction l with
  | nil => exact List.Perm.refl _
  | cons x xs ih => exact (insertDesc_perm key x _).trans (ih.cons x)

theorem pass1_shapes (ps : List Shape) (attrs : List Attrib) :
    ∀ sh ∈ (pass1 ps attrs).1, ∃ segs, sh = Shape.path segs := by
  intro sh hsh
  simp only [pass1, List.mem_map] at hsh
  obtain ⟨g, _, rfl⟩ := hsh
  exact ⟨_, rfl⟩

theorem pass3_shapes (ps : List Shape) (attrs : List Attrib) :
    ∀ sh ∈ (pass3 ps attrs).1, ∃ segs, sh = Shape.path segs := by
  intro sh hsh
  simp only [pass3, List.mem_map] at hsh
  obtain ⟨g, _, rfl⟩ := hsh
  exact ⟨_, rfl⟩

theorem pass2_mem {segBBox : Segment → BBox} {ps : List Shape}
    {attrs : List Attrib} {M : ℕ} {r : List Shape × List Attrib}
    (h : pass2 segBBox ps attrs M = .ok r) :
    ∀ sh ∈ r.1, sh ∈ ps := by
  intro sh hsh
  unfold pass2 at h
  cases hm : mapSizes segBBox ps with
  | error e => rw [hm] at h; cases h
  | ok sizes =>
    rw [hm] at h
    injection h with h
    subst h
    obtain ⟨⟨⟨sh2, a2⟩, sz⟩, ht, rfl⟩ := List.mem_map.mp hsh
    have h1 := List.take_subset M _ ht
    have h2 := (pySortDesc_perm (fun t => t.2) ((ps.zip attrs).zip sizes)).subset h1
    exact (List.of_mem_zip ((List.of_mem_zip h2).1)).1

/-- C10: whenever the simplifier returns a result, every entry of its
paths list is a (freshly built, combined) Path object, so the rectangle
branch and the unhandled-element branch of the projection loop, which
fire only on non-Path entries, are unreachable for simplified input. -/
theorem claim10_simplified_paths (segBBox : Segment → BBox) (ps : List Shape)
    (attrs : List Attrib) (M : ℕ) (r : List Shape × List Attrib)
    (h : simplify_svg segBBox ps attrs M = .ok r) :
    ∀ sh ∈ r.1, ∃ segs, sh = Shape.path segs := by
  intro sh hsh
  simp only [simplify_svg] at h
  split at h
  next e heq => cases h
  next r2 heq =>
    injection h with h
    subst h
    have hr2 : ∀ sh ∈ r2.1, ∃ segs, sh = Shape.path segs := by
      split at heq
      · intro x hx
        exact pass1_shapes ps attrs x (pass2_mem heq x hx)
      · injection heq with heq
        subst heq
        exact pass1_shapes ps attrs
    have hr3 : ∀ sh ∈ (if r2.1.length > M then pass3 r2.1 r2.2 else r2).1,
        ∃ segs, sh = Shape.path segs := by
      split
      · exact pass3_shapes r2.1 r2.2
      · exact hr2
    generalize (if r2.1.length > M then pass3 r2.1 r2.2 else r2) = r3 at hr3 hsh
    revert hsh
    split
    · intro hsh
      exact hr3 sh (List.take_subset M _ hsh)
    · exact fun hsh => hr3 sh hsh

/-- C10 witness: the single entry surviving simplification of a
one-line path is a Path object. -/
theorem claim10_witness : ∃ segs, Shape.path [lineA] = Shape.path segs :=
  claim10_simplified_paths segBBoxZero [Shape.path [lineA]] [{}] 40
    ([Shape.path [lineA]], [{ fill := some "#000000", opacity := some 1 }])
    (by decide) (Shape.path [lineA]) (by simp)

/-- C1 (amended): whenever the simplifier returns a result, its list
of entries has length at most max_layers; the final document, which
holds one layer per segment of each retained path, may still exceed
max_layers, the code only printing a warning. -/
theorem claim1_simplifier_bound (segBBox : Segment → BBox) (ps : List Shape)
    (attrs : List Attrib) (M : ℕ) (r : List Shape × List Attrib)
    (h : simplify_svg segBBox ps attrs M = .ok r) :
    r.1.length ≤ M := by
  simp only [simplify_svg] at h
  split at h
  next e heq => cases h
  next r2 heq =>
    injection h with h
    subst h
    generalize (if r2.1.length > M then pass3 r2.1 r2.2 else r2) = r3
    split
    · simp [List.length_take]
    · next hgt => exact Nat.le_of_not_lt hgt

/-- C1 witness: two same-styled one-segment paths are merged into a
single entry, within the cap of 40. -/
theorem claim1_witness :
    simplify_svg segBBoxZero [Shape.path [lineA], Shape.path [lineA]]
        [attribRed, attribRed] 40
      = Except.ok ([Shape.path [lineA, lineA]], [attribRed]) ∧
    ([Shape.path [lineA, lineA]] : List Shape).length ≤ 40 :=
  ⟨by decide,
   claim1_simplifier_bound segBBoxZero [Shape.path [lineA], Shape.path [lineA]]
     [attribRed, attribRed] 40 ([Shape.path [lineA, lineA]], [attribRed]) (by decide)⟩


/-! ### C6: aborting entries make the conversion return no result -/

theorem projectPath_none_of_arc (S : ℚ) (f : String) (op : ℚ)
    {segs : List Segment} {p0 p1 : Pt} (hmem : Segment.arc p0 p1 ∈ segs) :
    projectPath S f op segs = none := by
  induction segs with
  | nil => cases hmem
  | cons s rest ih =>
    rcases List.mem_cons.mp hmem with rfl | hmem2
    · rfl
    · cases hps : projectSegment S f op s with
      | none => simp [projectPath, hps]
      | some l => simp [projectPath, hps, ih hmem2]

theorem aborting_path_arc {segs : List Segment} {a : Attrib}
    (h : abortingEntry (Shape.path segs, a)) :
    ∃ p0 p1, Segment.arc p0 p1 ∈ segs := by
  obtain ⟨s, hs, hforall⟩ := h
  cases s with
  | line p0 p1 => exact absurd rfl (hforall p0 p1 p0 p1).1
  | cubic p0 p1 p2 p3 => exact absurd rfl (hforall p0 p1 p2 p3).2.1
  | quad p0 p1 p2 => exact absurd rfl (hforall p0 p1 p2 p2).2.2
  | arc p0 p1 => exact ⟨p0, p1, hs⟩

theorem projectEntry_none_of_aborting {S : ℚ} {e : Shape × Attrib}
    (h : abortingEntry e) : projectEntry S e = none := by
  obtain ⟨sh, a⟩ := e
  cases sh with
  | path segs =>
    obtain ⟨p0, p1, hmem⟩ := aborting_path_arc h
    simp [projectEntry, projectPath_none_of_arc _ _ _ hmem]
  | seg s =>
    have hd : a.d ≠ none := h
    simp [projectEntry, hd]

theorem projectAll_none_of_mem {S : ℚ} {l : List (Shape × Attrib)}
    {e : Shape × Attrib} (hmem : e ∈ l) (hnone : projectEntry S e = none) :
    projectAll S l = none := by
  induction l with
  | nil => cases hmem
  | cons x rest ih =>
    rcases List.mem_cons.mp hmem with rfl | hmem2
    · simp [projectAll, hnone]
    · cases hx : projectEntry S x with
      | none => simp [projectAll, hx]
      | some ls => simp [projectAll, hx, ih hmem2]

/-- C6: when the simplified entries contain a segment kind outside
line, cubic and quadratic, or a non-Path entry carrying path data, the
top-level conversion returns the sentinel absence (none) and emits no
partial payload. -/
theorem claim6_unsupported_aborts (segBBox : Segment → BBox) (ps : List Shape)
    (attrs : List Attrib) (S : ℚ) (M : ℕ) (D : ℚ) (r : List Shape × List Attrib)
    (hok : simplify_svg segBBox ps attrs M = .ok r)
    (hbad : ∃ e ∈ r.1.zip r.2, abortingEntry e) :
    svg_to_battlefield segBBox ps attrs S M D = none := by
  obtain ⟨e, hmem, habort⟩ := hbad
  simp [svg_to_battlefield, hok,
        projectAll_none_of_mem hmem (projectEntry_none_of_aborting habort)]

/-- C6 witness: converting a path holding one arc segment returns
none. -/
theorem claim6_witness :
    svg_to_battlefield segBBoxZero [Shape.path [arcSeg]] [{}] (8/5) 40 317 = none :=
  claim6_unsupported_aborts segBBoxZero [Shape.path [arcSeg]] [{}] (8/5) 40 317
    ([Shape.path [arcSeg]], [{ fill := some "#000000", opacity := some 1 }])
    (by decide)
    ⟨(Shape.path [arcSeg], { fill := some "#000000", opacity := some 1 }),
     by simp,
     ⟨arcSeg, by simp,
      fun p0 p1 p2 p3 => ⟨by simp [arcSeg], by simp [arcSeg], by simp [arcSeg]⟩⟩⟩


/-! ### C1: the final document can hold more layers than the cap -/

theorem projectSegment_seg00 :
    projectSegment (8/5) "#000000" 1 seg00 = some layer00 := by
  simp [projectSegment, seg00, layer00]

theorem projectPath_replicate (n : ℕ) :
    projectPath (8/5) "#000000" 1 (List.replicate n seg00)
      = some (List.replicate n layer00) := by
  induction n with
  | zero => rfl
  | succ n ih => simp [List.replicate_succ, projectPath, projectSegment_seg00, ih]

theorem overallHeight_replicate_aux (n : ℕ) (acc : ℚ) (h : 0 ≤ acc) :
    (List.replicate n layer00).foldl (fun a l => max a (l.top + l.height)) acc = acc := by
  induction n generalizing acc with
  | zero => rfl
  | succ n ih =>
    simp only [List.replicate_succ, List.foldl_cons]
    rw [show layer00.top + layer00.height = 0 by norm_num [layer00], max_eq_left h]
    exact ih acc h

theorem overallHeight_replicate (n : ℕ) :
    overallHeight (List.replicate n layer00) = 0 :=
  overallHeight_replicate_aux n 0 le_rfl

theorem simplify_svg_replicate41 :
    simplify_svg segBBoxZero [Shape.path (List.replicate 41 seg00)] [{}] 40
      = Except.ok ([Shape.path (List.replicate 41 seg00)],
                   [{ fill := some "#000000", opacity := some 1 }]) := by
  decide

/-- C1 counterexample: a single path of 41 degenerate line segments in
one style survives simplification as one entry, and the conversion then
returns a document whose params.data holds 41 layers, exceeding
max_layers = 40 — refuting the claimed cardinality invariant of the
final document. -/
theorem claim1_counterexample :
    (svg_to_battlefield segBBoxZero [Shape.path (List.replicate 41 seg00)] [{}]
        (8/5) 40 317).map (fun p => p.data.length) = some 41 ∧ ¬ ((41 : ℕ) ≤ 40) := by
  refine ⟨?_, by decide⟩
  have hfill : resolveFill { fill := some "#000000", opacity := some 1 } = "#000000" := by
    decide
  have hop : resolveOpacity { fill := some "#000000", opacity := some 1 } = 1 := rfl
  have hproj : projectAll (8/5)
      ([Shape.path (List.replicate 41 seg00)].zip
        [{ fill := some "#000000", opacity := some 1 }])
      = some (List.replicate 41 layer00) := by
    simp only [List.zip_cons_cons, List.zip_nil_right, projectAll, projectEntry,
               hfill, hop, projectPath_replicate, List.append_nil]
  have hfit : scale_to_fit (List.replicate 41 layer00) 317 = List.replicate 41 layer00 :=
    scale_to_fit_of_le (by rw [overallHeight_replicate]; norm_num)
  have hall : svg_to_battlefield segBBoxZero [Shape.path (List.replicate 41 seg00)] [{}]
      (8/5) 40 317
      = some { jsonrpc := "2.0", method := "Emblems.newPrivateEmblem",
               data := List.replicate 41 layer00,
               id := "00000000-0000-0000-0000-000000000000" } := by
    simp only [svg_to_battlefield, simplify_svg_replicate41, hproj, hfit]
  rw [hall]
  simp [List.length_replicate]

/-! ### C8: curve segments project to the sampled bounding box -/

theorem curveLayer_top (S : ℚ) (f : String) (op : ℚ) (pts : List Pt) (hS : 0 ≤ S) :
    (curveLayer S f op pts).top = pyMin (pts.map (fun p => S * p.im)) := by
  have him : pts.map (fun p => S * p.im) = (pts.map Pt.im).map (fun x => S * x) := by
    simp [List.map_map]
  rw [him, pyMin_map_mul _ _ hS]
  simp [curveLayer, mul_comm]

theorem curveLayer_left (S : ℚ) (f : String) (op : ℚ) (pts : List Pt) (hS : 0 ≤ S) :
    (curveLayer S f op pts).left = pyMin (pts.map (fun p => S * p.re)) := by
  have hre : pts.map (fun p => S * p.re) = (pts.map Pt.re).map (fun x => S * x) := by
    simp [List.map_map]
  rw [hre, pyMin_map_mul _ _ hS]
  simp [curveLayer, mul_comm]

theorem curveLayer_bottom (S : ℚ) (f : String) (op : ℚ) (pts : List Pt) (hS : 0 ≤ S) :
    (curveLayer S f op pts).top + (curveLayer S f op pts).height
      = pyMax (pts.map (fun p => S * p.im)) := by
  have him : pts.map (fun p => S * p.im) = (pts.map Pt.im).map (fun x => S * x) := by
    simp [List.map_map]
  rw [him, pyMax_map_mul _ _ hS]
  simp [curveLayer, mul_comm]

theorem curveLayer_right (S : ℚ) (f : String) (op : ℚ) (pts : List Pt) (hS : 0 ≤ S) :
    (curveLayer S f op pts).left + (curveLayer S f op pts).width
      = pyMax (pts.map (fun p => S * p.re)) := by
  have hre : pts.map (fun p => S * p.re) = (pts.map Pt.re).map (fun x => S * x) := by
    simp [List.map_map]
  rw [hre, pyMax_map_mul _ _ hS]
  simp [curveLayer, mul_comm]

theorem curveLayer_claim (S : ℚ) (f : String) (op : ℚ) (pts : List Pt) (hS : 0 ≤ S) :
    (curveLayer S f op pts).asset = Asset.Stroke ∧
    (curveLayer S f op pts).top = pyMin (pts.map (fun p => S * p.im)) ∧
    (curveLayer S f op pts).left = pyMin (pts.map (fun p => S * p.re)) ∧
    (curveLayer S f op pts).top + (curveLayer S f op pts).height
      = pyMax (pts.map (fun p => S * p.im)) ∧
    (curveLayer S f op pts).left + (curveLayer S f op pts).width
      = pyMax (pts.map (fun p => S * p.re)) ∧
    (∀ pt ∈ pts,
      (curveLayer S f op pts).left ≤ S * pt.re ∧
      S * pt.re ≤ (curveLayer S f op pts).left + (curveLayer S f op pts).width ∧
      (curveLayer S f op pts).top ≤ S * pt.im ∧
      S * pt.im ≤ (curveLayer S f op pts).top + (curveLayer S f op pts).height) := by
  refine ⟨rfl, curveLayer_top S f op pts hS, curveLayer_left S f op pts hS,
          curveLayer_bottom S f op pts hS, curveLayer_right S f op pts hS, ?_⟩
  intro pt hpt
  have hre : S * pt.re ∈ pts.map (fun p => S * p.re) := List.mem_map_of_mem _ hpt
  have him : S * pt.im ∈ pts.map (fun p => S * p.im) := List.mem_map_of_mem _ hpt
  exact ⟨(curveLayer_left S f op pts hS).le.trans (pyMin_le hre),
         le_of_le_of_eq (le_pyMax hre) (curveLayer_right S f op pts hS).symm,
         (curveLayer_top S f op pts hS).le.trans (pyMin_le him),
         le_of_le_of_eq (le_pyMax him) (curveLayer_bottom S f op pts hS).symm⟩

/-- C8: a cubic or quadratic curve segment is projected to exactly one
Stroke-asset layer whose top, left and extents are the bounding box of
the 21 points sampled at t = i/20 for i = 0..20, each coordinate
multiplied by the nonnegative scale factor S; all scaled samples lie
inside the layer box and all four bounds are attained. -/
theorem claim8_curve_projection (S : ℚ) (f : String) (op : ℚ) (seg : Segment)
    (hS : 0 ≤ S) (hc : isCurve seg = true) :
    ∃ L, projectSegment S f op seg = some L ∧
      L.asset = Asset.Stroke ∧
      (curveSamples seg).length = 21 ∧
      curveSamples seg = (List.range 21).map (fun i : ℕ => seg.point ((i : ℚ) / 20)) ∧
      L.top = pyMin ((curveSamples seg).map (fun p => S * p.im)) ∧
      L.left = pyMin ((curveSamples seg).map (fun p => S * p.re)) ∧
      L.top + L.height = pyMax ((curveSamples seg).map (fun p => S * p.im)) ∧
      L.left + L.width = pyMax ((curveSamples seg).map (fun p => S * p.re)) ∧
      (∀ pt ∈ curveSamples seg,
        L.left ≤ S * pt.re ∧ S * pt.re ≤ L.left + L.width ∧
        L.top ≤ S * pt.im ∧ S * pt.im ≤ L.top + L.height) := by
  have hlen : (curveSamples seg).length = 21 := by
    simp only [curveSamples, List.length_map, List.length_range]
  cases seg with
  | line p0 p1 => cases hc
  | arc p0 p1 => cases hc
  | cubic p0 p1 p2 p3 =>
    obtain ⟨ha, h1, h2, h3, h4, h5⟩ :=
      curveLayer_claim S f op (curveSamples (.cubic p0 p1 p2 p3)) hS
    exact ⟨curveLayer S f op (curveSamples (.cubic p0 p1 p2 p3)),
           rfl, ha, hlen, rfl, h1, h2, h3, h4, h5⟩
  | quad p0 p1 p2 =>
    obtain ⟨ha, h1, h2, h3, h4, h5⟩ :=
      curveLayer_claim S f op (curveSamples (.quad p0 p1 p2)) hS
    exact ⟨curveLayer S f op (curveSamples (.quad p0 p1 p2)),
           rfl, ha, hlen, rfl, h1, h2, h3, h4, h5⟩

/-- C8 witness: a concrete quadratic segment projects to a Stroke
layer. -/
theorem claim8_witness :
    ∃ L, projectSegment (8/5) "#FF0000" 1 quadSeg = some L ∧ L.asset = Asset.Stroke := by
  obtain ⟨L, h1, h2, _⟩ :=
    claim8_curve_projection (8/5) "#FF0000" 1 quadSeg (by norm_num) rfl
  exact ⟨L, h1, h2⟩


/-! ### C3: the truncation pass does not sort by bounding-box area -/

theorem pathSize_pathA : pathSize segBBoxPts pathA = Except.ok 0 := by
  simp [pathSize, pathA, pathBBox, segBBoxPts, lineA]
  try norm_num [min_def, max_def]

theorem pathSize_pathB : pathSize segBBoxPts pathB = Except.ok 100 := by
  simp [pathSize, pathB, pathBBox, segBBoxPts, lineB]
  try norm_num [min_def, max_def]

theorem specArea_pathA : specArea segBBoxPts pathA = 9 := by
  simp [specArea, pathA, pathBBox, segBBoxPts, lineA]
  try norm_num [min_def, max_def]

theorem specArea_pathB : specArea segBBoxPts pathB = 1 := by
  simp [specArea, pathB, pathBBox, segBBoxPts, lineB]
  try norm_num [min_def, max_def]

theorem pass1_AB :
    pass1 [pathA, pathB] [attribA, attribB]
      = ([pathA, pathB],
         [{ fill := some "#AAAAAA", opacity := some 1 },
          { fill := some "#BBBBBB", opacity := some 1 }]) := by
  decide

theorem pass2_AB :
    pass2 segBBoxPts [pathA, pathB]
        [{ fill := some "#AAAAAA", opacity := some 1 },
         { fill := some "#BBBBBB", opacity := some 1 }] 1
      = Except.ok ([pathB], [{ fill := some "#BBBBBB", opacity := some 1 }]) := by
  have hsizes : mapSizes segBBoxPts [pathA, pathB] = Except.ok [0, 100] := by
    simp [mapSizes, pathSize_pathA, pathSize_pathB]
  have hsort : pySortDesc (fun t => t.2)
      ([((pathA, ({ fill := some "#AAAAAA", opacity := some 1 } : Attrib)), (0 : ℚ)),
        ((pathB, ({ fill := some "#BBBBBB", opacity := some 1 } : Attrib)), (100 : ℚ))])
      = [((pathB, ({ fill := some "#BBBBBB", opacity := some 1 } : Attrib)), (100 : ℚ)),
         ((pathA, ({ fill := some "#AAAAAA", opacity := some 1 } : Attrib)), (0 : ℚ))] := by
    norm_num [pySortDesc, insertDesc]
  simp [pass2, hsizes, hsort]

/-- C3 (code bug): on two single-line paths with distinct fills and
max_layers = 1, the truncation pass keeps path B, whose bounding-box
area (1) is smaller than path A's (9), because the code computes
(bbox[2] - bbox[0]) * (bbox[3] - bbox[1]) on the
(xmin, xmax, ymin, ymax) tuple — (ymin - xmin) * (ymax - xmax), here 0
for A and 100 for B — instead of the area width times height. -/
theorem claim3_size_bug :
    simplify_svg segBBoxPts [pathA, pathB] [attribA, attribB] 1
      = Except.ok ([pathB], [{ fill := some "#BBBBBB", opacity := some 1 }]) ∧
    specArea segBBoxPts pathA > specArea segBBoxPts pathB ∧
    pathSize segBBoxPts pathA = Except.ok 0 ∧
    pathSize segBBoxPts pathB = Except.ok 100 := by
  refine ⟨?_, ?_, pathSize_pathA, pathSize_pathB⟩
  · simp [simplify_svg, pass1_AB, pass2_AB]
  · rw [specArea_pathA, specArea_pathB]
    norm_num


/-! ### C7: idempotence of the simplifier -/

theorem groupInsert_notmem {κ ν : Type} [DecidableEq κ]
    (g : List (κ × List ν)) (k : κ) (v : ν) (hk : k ∉ g.map Prod.fst) :
    groupInsert g k v = g ++ [(k, [v])] := by
  induction g with
  | nil => rfl
  | cons p rest ih =>
    have h1 : p.1 ≠ k := by
      intro he
      exact hk (by simp [he])
    have h2 : k ∉ rest.map Prod.fst := by
      intro hm
      exact hk (by simp [hm])
    simp [groupInsert, h1, ih h2]

theorem foldl_groupInsert_nodup (l : List (Shape × Attrib))
    (g : List ((String × ℚ) × List Shape))
    (hnd : (l.map (fun pa => styleKey pa.2)).Nodup)
    (hdisj : ∀ pa ∈ l, styleKey pa.2 ∉ g.map Prod.fst) :
    l.foldl (fun g pa => groupInsert g (styleKey pa.2) pa.1) g
      = g ++ l.map (fun pa => (styleKey pa.2, [pa.1])) := by
  induction l generalizing g with
  | nil => simp
  | cons pa rest ih =>
    have hnd2 : (List.map (fun pa => styleKey pa.2) (pa :: rest)).Nodup := hnd
    rw [List.map_cons] at hnd2
    obtain ⟨hhead, htail⟩ := List.nodup_cons.mp hnd2
    simp only [List.foldl_cons]
    rw [groupInsert_notmem g _ _ (hdisj pa (List.mem_cons_self pa rest)),
        ih (g ++ [(styleKey pa.2, [pa.1])]) htail ?_]
    · simp
    · intro qa hqa hin
      rw [List.map_append] at hin
      rcases List.mem_append.mp hin with hin2 | hin2
      · exact hdisj qa (List.mem_cons_of_mem pa hqa) hin2
      · have he : styleKey qa.2 = styleKey pa.2 := List.mem_singleton.mp hin2
        exact hhead (he ▸ List.mem_map_of_mem (fun x => styleKey x.2) hqa)

theorem pass1_of_simplified (ps : List Shape) (attrs : List Attrib)
    (hlen : ps.length = attrs.length)
    (hp : ∀ sh ∈ ps, ∃ segs, sh = Shape.path segs)
    (ha : ∀ a ∈ attrs, ∃ f o, a = { fill := some f, opacity := some o })
    (hnd : (attrs.map styleKey).Nodup) :
    pass1 ps attrs = (ps, attrs) := by
  have hsnd : (ps.zip attrs).map Prod.snd = attrs :=
    List.map_snd_zip ps attrs (le_of_eq hlen.symm)
  have hfst : (ps.zip attrs).map Prod.fst = ps :=
    List.map_fst_zip ps attrs (le_of_eq hlen)
  have hzip : ((ps.zip attrs).map (fun pa => styleKey pa.2)).Nodup := by
    have : (ps.zip attrs).map (fun pa => styleKey pa.2)
        = ((ps.zip attrs).map Prod.snd).map styleKey := by
      simp [List.map_map]
    rw [this, hsnd]
    exact hnd
  unfold pass1
  rw [foldl_groupInsert_nodup (ps.zip attrs) [] hzip (by simp)]
  simp only [List.nil_append, List.map_map, Prod.mk.injEq]
  constructor
  · have hcongr : ∀ pa ∈ ps.zip attrs,
        ((fun g => Shape.path (combineGroup g.2)) ∘
          (fun pa => (styleKey pa.2, [pa.1]))) pa = Prod.fst pa := by
      intro pa hpa
      obtain ⟨segs, hseg⟩ := hp pa.1 (List.of_mem_zip hpa).1
      simp [combineGroup, appendShape, hseg]
    rw [List.map_congr_left hcongr, hfst]
  · have hcongr : ∀ pa ∈ ps.zip attrs,
        ((fun g => ({ fill := some g.1.1, opacity := some g.1.2 } : Attrib)) ∘
          (fun pa => (styleKey pa.2, [pa.1]))) pa = Prod.snd pa := by
      intro pa hpa
      obtain ⟨f, o, hattr⟩ := ha pa.2 (List.of_mem_zip hpa).2
      simp [styleKey, hattr]
    rw [List.map_congr_left hcongr, hsnd]

/-- C7 (amended): the simplifier returns a sequence unchanged, in
order, when it is of length at most M, every entry is a Path object,
every attribute map holds exactly an explicit fill and an explicit
opacity, and the (fill, opacity) style keys are pairwise distinct. -/
theorem claim7_idempotent (segBBox : Segment → BBox) (ps : List Shape)
    (attrs : List Attrib) (M : ℕ)
    (hlen : ps.length = attrs.length) (hM : ps.length ≤ M)
    (hp : ∀ sh ∈ ps, ∃ segs, sh = Shape.path segs)
    (ha : ∀ a ∈ attrs, ∃ f o, a = { fill := some f, opacity := some o })
    (hnd : (attrs.map styleKey).Nodup) :
    simplify_svg segBBox ps attrs M = .ok (ps, attrs) := by
  have h1 := pass1_of_simplified ps attrs hlen hp ha hnd
  have hgt : ¬ ps.length > M := Nat.not_lt.mpr hM
  simp [simplify_svg, h1, hgt]

/-- C7 witness: a one-entry sequence with explicit fill and opacity is
returned unchanged. -/
theorem claim7_witness :
    simplify_svg segBBoxZero [Shape.path [lineA]] [attribRed] 40
      = Except.ok ([Shape.path [lineA]], [attribRed]) :=
  claim7_idempotent segBBoxZero [Shape.path [lineA]] [attribRed] 40 rfl
    (by norm_num)
    (by intro sh hsh; simp at hsh; exact ⟨[lineA], hsh⟩)
    (by intro a hha; simp at hha; exact ⟨"#FF0000", 1, by rw [hha]; rfl⟩)
    (by simp)

/-- C7 counterexample: a one-entry sequence (length within the cap,
one entry per style key) whose attribute map lacks explicit fill and
opacity keys is not returned unchanged — the simplifier rewrites its
attributes to the defaulted style — refuting idempotence under the
claimed hypotheses alone. -/
theorem claim7_counterexample :
    ([Shape.path [lineA]] : List Shape).length ≤ 40 ∧
    ((([({} : Attrib)]).map styleKey).Nodup) ∧
    simplify_svg segBBoxZero [Shape.path [lineA]] [{}] 40
      ≠ Except.ok ([Shape.path [lineA]], [{}]) := by
  refine ⟨by norm_num, by simp, ?_⟩
  have heval : simplify_svg segBBoxZero [Shape.path [lineA]] [{}] 40
      = Except.ok ([Shape.path [lineA]],
                   [{ fill := some "#000000", opacity := some 1 }]) := by
    decide
  rw [heval]
  simp

end SvgConv
